import Mathlib

/-!
Verification of the moe-trading-system decision-aggregation and
portfolio-simulation core against its natural-language specification.

The Python sources are shallowly embedded: pure numeric code over IEEE
floats is modelled over `ℚ` (portfolio simulator, metrics, backtester
date logic) or over `ℝ` where the code calls `np.log` (expert
aggregator); Python's arbitrary-precision `int` is `ℤ`; `int(x)`
(truncation toward zero) is `pyInt`; Python dicts keyed by strings are
association lists; code that returns early with a failure record returns
the unchanged state paired with the record.
-/

/-- Python `int(x)` applied to a float/fraction truncates toward zero
(`src/backend/evaluation/portfolio_simulator.py` uses `int(...)` on
non-negative and possibly negative quotients). -/
def pyInt (q : ℚ) : ℤ := if 0 ≤ q then ⌊q⌋ else ⌈q⌉

namespace PortfolioSim

/-- `PortfolioSimulatorConfig` (src/backend/core/data_types.py:694-706),
restricted to the numeric fields the simulator reads. -/
structure PSConfig where
  initial_capital : ℚ := 100000
  position_sizing : ℚ := 0.08
  cash_reserve : ℚ := 0.2
  min_cash_reserve : ℚ := 0.1
  transaction_cost : ℚ := 0.001
  slippage : ℚ := 0.0005
  max_position_size : ℚ := 0.25
deriving Repr

/-- `EvaluationPosition` (src/backend/core/data_types.py:513-555).
`last_updated`/`status` are timestamps/labels not read by any claim's
numeric path and are omitted. -/
structure EPosition where
  ticker : String
  quantity : ℤ
  avg_price : ℚ
  current_price : ℚ
  unrealized_pnl : ℚ
  realized_pnl : ℚ
deriving Repr, DecidableEq

/-- `EvaluationPosition.__post_init__`: unrealized P&L is
`(current_price - avg_price) * quantity`; realized starts at 0. -/
def mkEPosition (ticker : String) (quantity : ℤ) (avg_price current_price : ℚ) :
    EPosition :=
  { ticker := ticker, quantity := quantity, avg_price := avg_price,
    current_price := current_price,
    unrealized_pnl := (current_price - avg_price) * quantity,
    realized_pnl := 0 }

/-- `EvaluationPosition.update_price`. -/
def EPosition.update_price (p : EPosition) (new_price : ℚ) : EPosition :=
  { p with current_price := new_price,
           unrealized_pnl := (new_price - p.avg_price) * p.quantity }

/-- `EvaluationPosition.add_quantity` (average the cost basis, then
`update_price(self.current_price)`). -/
def EPosition.add_quantity (p : EPosition) (quantity : ℤ) (price : ℚ) : EPosition :=
  let total_cost : ℚ := p.quantity * p.avg_price + quantity * price
  let newQty : ℤ := p.quantity + quantity
  let p' := { p with quantity := newQty, avg_price := total_cost / newQty }
  p'.update_price p'.current_price

/-- `EvaluationPosition.reduce_quantity`: close the position when the
requested quantity covers the holding, else a partial reduction; in both
cases finish with `update_price(price)`. -/
def EPosition.reduce_quantity (p : EPosition) (quantity : ℤ) (price : ℚ) : EPosition :=
  let p' :=
    if p.quantity ≤ quantity then
      { p with realized_pnl := p.realized_pnl + (price - p.avg_price) * p.quantity,
               quantity := 0 }
    else
      { p with realized_pnl := p.realized_pnl + (price - p.avg_price) * quantity,
               quantity := p.quantity - quantity }
  p'.update_price price

/-- The simulator's `self.positions` dict: ticker → position, unique keys. -/
abbrev PosMap := List (String × EPosition)

def lookupPos (m : PosMap) (t : String) : Option EPosition :=
  (m.find? (fun x => x.1 = t)).map Prod.snd

/-- `self.positions[ticker] = pos` (replace or append). -/
def setPos (m : PosMap) (t : String) (pos : EPosition) : PosMap :=
  if (m.find? (fun x => x.1 = t)).isSome then
    m.map (fun x => if x.1 = t then (t, pos) else x)
  else m ++ [(t, pos)]

/-- `del self.positions[ticker]`. -/
def erasePos (m : PosMap) (t : String) : PosMap :=
  m.filter (fun x => ¬ x.1 = t)

/-- `sum(pos.quantity * pos.current_price for pos in positions.values())`
(used by `EvaluationPortfolioState.calculate_total_value` /
`create_evaluation_portfolio_state`). -/
def posValue (m : PosMap) : ℚ :=
  (m.map (fun x => (x.2.quantity : ℚ) * x.2.current_price)).sum

/-- History snapshot appended by `_update_portfolio_state` via
`create_evaluation_portfolio_state` (src/backend/core/data_types.py:726-739).
`cash` and `total_value` are Python floats and are captured by value.  The
`positions` field of the Python object is the `self.positions` dict itself,
passed without any copy — that aliasing is modelled by `snapshotPositions`
below, so the snapshot record here carries only the by-value fields. -/
structure Snapshot where
  cash : ℚ
  total_value : ℚ
deriving Repr, DecidableEq

/-- `PortfolioSimulator` mutable state: `self.cash`, `self.positions`,
`self.current_state.total_value` (the only field of `current_state` that
later numeric paths read), and `self.portfolio_history`. -/
structure Sim where
  config : PSConfig
  cash : ℚ
  positions : PosMap
  stateTotalValue : ℚ
  history : List Snapshot

/-- `PortfolioSimulator.__init__`: cash = initial capital, no positions,
`current_state.total_value` set to the initial capital, empty history. -/
def initSim (cfg : PSConfig) : Sim :=
  { config := cfg, cash := cfg.initial_capital, positions := [],
    stateTotalValue := cfg.initial_capital, history := [] }

/-- `create_evaluation_portfolio_state` stores the live `self.positions`
dict object in every snapshot without copying; since the simulator never
rebinds that dict (it only mutates it in place), reading any history
snapshot's `positions` at a later time yields the simulator's positions at
that time.  This definition makes that aliasing explicit. -/
def snapshotPositions (s : Sim) (_i : ℕ) : PosMap := s.positions

/-- `PortfolioSimulator._update_portfolio_state`: rebuild `current_state`
(recomputing `total_value = cash + Σ qty·price`) and append it to
`portfolio_history`. -/
def updatePortfolioState (s : Sim) : Sim :=
  let tv := s.cash + posValue s.positions
  { s with stateTotalValue := tv, history := s.history ++ [⟨s.cash, tv⟩] }

/-- `PortfolioSimulator.calculate_position_size`
(src/backend/evaluation/portfolio_simulator.py:70-110). -/
def calculate_position_size (s : Sim) (price confidence : ℚ) : ℤ :=
  if price ≤ 0 then 0
  else
    let base_size := s.stateTotalValue * s.config.position_sizing
    let confidence_multiplier : ℚ := 0.5 + confidence * 0.5
    let adjusted_size := base_size * confidence_multiplier
    let shares := pyInt (adjusted_size / price)
    let max_position_value := s.stateTotalValue * s.config.max_position_size
    let max_shares := pyInt (max_position_value / price)
    let shares := min shares max_shares
    let min_position_value := s.stateTotalValue * 0.01
    let min_shares := max 1 (pyInt (min_position_value / price))
    max shares min_shares

/-- `PortfolioSimulator.check_cash_availability`: returns
`(available_cash >= required_cash, available_cash)` where
`available_cash = cash - total_value * min_cash_reserve`. -/
def check_cash_availability (s : Sim) (required_cash : ℚ) : Bool × ℚ :=
  let required_reserve := s.stateTotalValue * s.config.min_cash_reserve
  let available_cash := s.cash - required_reserve
  (required_cash ≤ available_cash, available_cash)

inductive TradeAction | BUY | SELL | HOLD
deriving Repr, DecidableEq

/-- `TradeRecord` restricted to the fields the claims inspect. -/
structure TradeRec where
  action : TradeAction
  quantity : ℤ
  price : ℚ
  success : Bool
deriving Repr, DecidableEq

/-- Shared tail of `_execute_buy`: debit cash by
`trade_value + transaction_cost + slippage`, add to or create the
position, then `_update_portfolio_state`. -/
def doBuy (s : Sim) (ticker : String) (quantity : ℤ) (price : ℚ) : Sim :=
  let trade_value := (quantity : ℚ) * price
  let total_cost := trade_value + trade_value * s.config.transaction_cost +
    trade_value * s.config.slippage
  let s := { s with cash := s.cash - total_cost }
  let s :=
    match lookupPos s.positions ticker with
    | some pos =>
        { s with positions := setPos s.positions ticker (pos.add_quantity quantity price) }
    | none =>
        { s with positions :=
            setPos s.positions ticker (mkEPosition ticker quantity price price) }
  updatePortfolioState s

/-- `PortfolioSimulator._execute_buy`
(src/backend/evaluation/portfolio_simulator.py:179-263): full execution
when the cash check passes; otherwise shrink to
`int(available_cash / (price*(1+cost+slippage)))` shares if that is
positive, else return a failure record with no state change. -/
def executeBuy (s : Sim) (ticker : String) (quantity : ℤ) (price : ℚ) :
    Sim × TradeRec :=
  let trade_value := (quantity : ℚ) * price
  let total_cost := trade_value + trade_value * s.config.transaction_cost +
    trade_value * s.config.slippage
  let avail := check_cash_availability s total_cost
  if avail.1 then
    (doBuy s ticker quantity price,
     { action := .BUY, quantity := quantity, price := price, success := true })
  else
    let denominator := price * (1 + s.config.transaction_cost + s.config.slippage)
    let max_quantity := if 0 < denominator then pyInt (avail.2 / denominator) else 0
    if 0 < max_quantity then
      (doBuy s ticker max_quantity price,
       { action := .BUY, quantity := max_quantity, price := price, success := true })
    else
      (s, { action := .BUY, quantity := 0, price := price, success := false })

/-- `PortfolioSimulator._execute_sell`
(src/backend/evaluation/portfolio_simulator.py:265-333). -/
def executeSell (s : Sim) (ticker : String) (quantity : ℤ) (price : ℚ) :
    Sim × TradeRec :=
  match lookupPos s.positions ticker with
  | none => (s, { action := .SELL, quantity := 0, price := price, success := false })
  | some position =>
      let available_quantity := position.quantity
      let quantity := if available_quantity < quantity then available_quantity else quantity
      let trade_value := (quantity : ℚ) * price
      let net_proceeds := trade_value - trade_value * s.config.transaction_cost -
        trade_value * s.config.slippage
      let s := { s with cash := s.cash + net_proceeds }
      let position := position.reduce_quantity quantity price
      let s :=
        if position.quantity = 0 then
          { s with positions := erasePos s.positions ticker }
        else { s with positions := setPos s.positions ticker position }
      (updatePortfolioState s,
       { action := .SELL, quantity := quantity, price := price, success := true })

/-- `PortfolioSimulator.execute_trade`
(src/backend/evaluation/portfolio_simulator.py:130-177): HOLD returns a
zero-quantity success record with no mutation; BUY/SELL size the order
with `calculate_position_size` and dispatch. -/
def executeTrade (s : Sim) (ticker : String) (action : TradeAction)
    (price confidence : ℚ) : Sim × TradeRec :=
  match action with
  | .HOLD => (s, { action := .HOLD, quantity := 0, price := price, success := true })
  | .BUY => executeBuy s ticker (calculate_position_size s price confidence) price
  | .SELL => executeSell s ticker (calculate_position_size s price confidence) price

/-- `PortfolioSimulator.update_prices`: mark every held ticker whose new
price is valid (positive; NaN cannot arise over `ℚ`), then
`_update_portfolio_state`. -/
def update_prices (s : Sim) (price_updates : List (String × ℚ)) : Sim :=
  let s := price_updates.foldl
    (fun acc (u : String × ℚ) =>
      if u.2 ≤ 0 then acc
      else
        match lookupPos acc.positions u.1 with
        | some pos =>
            { acc with positions := setPos acc.positions u.1 (pos.update_price u.2) }
        | none => acc) s
  updatePortfolioState s

/-- One `executeTrade` call as data, for reasoning over call sequences. -/
structure Cmd where
  ticker : String
  action : TradeAction
  price : ℚ
  confidence : ℚ

/-- A sequence of `executeTrade` calls (the records are discarded). -/
def runTrades (s : Sim) (cmds : List Cmd) : Sim :=
  cmds.foldl (fun acc c => (executeTrade acc c.ticker c.action c.price c.confidence).1) s




/-- The largest order `_execute_buy` shrinks to:
`int(available_cash / (price * (1 + transaction_cost + slippage)))`. -/
def maxAffordable (s : Sim) (price : ℚ) : ℤ :=
  pyInt ((s.cash - s.stateTotalValue * s.config.min_cash_reserve) /
    (price * (1 + s.config.transaction_cost + s.config.slippage)))

/-- Position-sizing formula exactly as the claim words it (for comparison
with `calculate_position_size`): shares clamped to the interval
`[floor(0.01 * portfolioValue / price), floor(maxPositionSize * portfolioValue / price)]`
with no floor of one share. -/
def positionSizeClaim (pv sizing maxpos price conf : ℚ) : ℤ :=
  max ⌊pv * 0.01 / price⌋
    (min ⌊pv * sizing * (0.5 + conf * 0.5) / price⌋ ⌊pv * maxpos / price⌋)

/-- Concrete ledger states used to instantiate the theorems below. -/
def simCash (cash tv : ℚ) : Sim :=
  { config := {}, cash := cash, positions := [], stateTotalValue := tv, history := [] }

/-- Sanity conditions on a simulator configuration: non-negative cost,
slippage and reserve fractions, and costs that do not exceed the full
trade value.  The shipped defaults (0.001, 0.0005, 0.1) satisfy them. -/
def validConfig (cfg : PSConfig) : Prop :=
  0 ≤ cfg.transaction_cost ∧ 0 ≤ cfg.slippage ∧
  cfg.transaction_cost + cfg.slippage ≤ 1 ∧ 0 ≤ cfg.min_cash_reserve

/-- Every held position has non-negative quantity and mark price. -/
def posNonneg (m : PosMap) : Prop :=
  ∀ x ∈ m, 0 ≤ x.2.quantity ∧ 0 ≤ x.2.current_price

/-- Ledger well-formedness: non-negative cash, positions, and cached
`current_state.total_value`. -/
def WF (s : Sim) : Prop :=
  0 ≤ s.cash ∧ posNonneg s.positions ∧ 0 ≤ s.stateTotalValue

/-- `total_cost` as `_execute_buy` computes it. -/
def buyCost (cfg : PSConfig) (q : ℤ) (price : ℚ) : ℚ :=
  (q : ℚ) * price + (q : ℚ) * price * cfg.transaction_cost +
    (q : ℚ) * price * cfg.slippage

end PortfolioSim

namespace Aggregator

open Classical

/-- `DecisionProbabilities` (src/backend/core/data_types.py:69-91), the
spec's SignalVector.  The dataclass stores the three floats as given;
validation happens in `__post_init__`, modelled by
`mkDecisionProbabilities` below. -/
structure DecisionProbabilities where
  buy_probability : ℝ
  hold_probability : ℝ
  sell_probability : ℝ

/-- `DecisionProbabilities.to_list`. -/
def DecisionProbabilities.to_list (p : DecisionProbabilities) : List ℝ :=
  [p.buy_probability, p.hold_probability, p.sell_probability]

/-- `DecisionProbabilities.__post_init__`: construction succeeds iff
`np.isclose(total, 1.0, atol=1e-6)`, i.e. `|total - 1| <= atol + rtol*|1|`
with numpy's default `rtol = 1e-5`; otherwise `ValueError` (here `none`).
No other validation is performed and the stored fields are the inputs. -/
noncomputable def mkDecisionProbabilities (b h s : ℝ) :
    Option DecisionProbabilities :=
  if |b + h + s - 1| ≤ 1e-6 + 1e-5 * |(1 : ℝ)| then some ⟨b, h, s⟩ else none

inductive DecisionType | BUY | HOLD | SELL
deriving Repr, DecidableEq

/-- One expert's output, restricted to the fields
`ExpertAggregator` reads: `probabilities`, `confidence.confidence_score`,
`metadata.input_data_quality`. -/
structure ExpertOutput where
  probabilities : DecisionProbabilities
  confidence_score : ℝ
  input_data_quality : ℝ

/-- `ExpertContribution` (weight, the expert's own probabilities, its
confidence; the name and raw output are the map key/value, the processing
time is wall-clock and not modelled). -/
structure ExpertContribution where
  weight : ℝ
  contribution : DecisionProbabilities
  confidence : ℝ

/-- `AggregationResult` (src/backend/aggregation/expert_aggregator.py:36-46)
minus the wall-clock `processing_time`. -/
structure AggregationResult where
  final_probabilities : DecisionProbabilities
  expert_contributions : List (String × ExpertContribution)
  aggregation_method : String
  gating_weights : List (String × ℝ)
  overall_confidence : ℝ
  decision_type : DecisionType
  reasoning : String

/-- `ExpertAggregator._create_fallback_result`
(src/backend/aggregation/expert_aggregator.py:364-385). -/
def fallbackResult : AggregationResult :=
  { final_probabilities := ⟨0, 1, 0⟩,
    expert_contributions := [],
    aggregation_method := "fallback",
    gating_weights := [],
    overall_confidence := 0.1,
    decision_type := .HOLD,
    reasoning := "Aggregation failed - using fallback decision" }

/-- The aggregator's entropy:
`-sum(p * np.log(p + 1e-10) for p in probabilities if p > 0)`
(src/backend/aggregation/expert_aggregator.py:192). -/
noncomputable def entropyCode (l : List ℝ) : ℝ :=
  -(l.map (fun p => if 0 < p then p * Real.log (p + 1e-10) else 0)).sum

/-- One expert's pre-normalization gating weight
(src/backend/aggregation/expert_aggregator.py:183-197):
`max(0.1, confidence + quality*0.4 + (1 - entropy/ln 3)*0.4)`. -/
noncomputable def rawWeight (o : ExpertOutput) : ℝ :=
  max 0.1 (o.confidence_score + o.input_data_quality * 0.4 +
    (1 - entropyCode o.probabilities.to_list / Real.log 3) * 0.4)

noncomputable def gatingWeightsRaw (outs : List (String × ExpertOutput)) :
    List (String × ℝ) :=
  outs.map (fun x => (x.1, rawWeight x.2))

noncomputable def totalWeight (outs : List (String × ExpertOutput)) : ℝ :=
  ((gatingWeightsRaw outs).map Prod.snd).sum

/-- `ExpertAggregator._calculate_gating_weights`
(src/backend/aggregation/expert_aggregator.py:169-209): normalize the raw
weights by their sum when positive, else fall back to uniform weights. -/
noncomputable def calculateGatingWeights (outs : List (String × ExpertOutput)) :
    List (String × ℝ) :=
  if 0 < totalWeight outs then
    (gatingWeightsRaw outs).map (fun x => (x.1, x.2 / totalWeight outs))
  else
    outs.map (fun x => (x.1, 1 / (outs.length : ℝ)))

/-- `weights.get(name, 0.0)`. -/
def lookupWeight (w : List (String × ℝ)) (name : String) : ℝ :=
  ((w.find? (fun x => x.1 = name)).map Prod.snd).getD 0

/-- `ExpertAggregator._aggregate_probabilities`
(src/backend/aggregation/expert_aggregator.py:211-240): weighted per-class
sums, renormalized when their total is positive.  The resulting triple is
fed to the `DecisionProbabilities` constructor. -/
noncomputable def aggregateProbabilitiesRaw (outs : List (String × ExpertOutput))
    (weights : List (String × ℝ)) : ℝ × ℝ × ℝ :=
  let ab := (outs.map (fun x => x.2.probabilities.buy_probability * lookupWeight weights x.1)).sum
  let ah := (outs.map (fun x => x.2.probabilities.hold_probability * lookupWeight weights x.1)).sum
  let asell := (outs.map (fun x => x.2.probabilities.sell_probability * lookupWeight weights x.1)).sum
  let total := ab + ah + asell
  if 0 < total then (ab / total, ah / total, asell / total) else (ab, ah, asell)

/-- `ExpertAggregator._determine_decision`
(src/backend/aggregation/expert_aggregator.py:270-292): take the maximum of
the three probabilities; BUY if it equals the buy probability, else SELL if
it equals the sell probability, else HOLD. -/
noncomputable def determineDecision (p : DecisionProbabilities) : DecisionType :=
  let max_prob := max p.buy_probability (max p.hold_probability p.sell_probability)
  if max_prob = p.buy_probability then .BUY
  else if max_prob = p.sell_probability then .SELL
  else .HOLD

/-- `ExpertAggregator._create_expert_contributions`. -/
noncomputable def createExpertContributions (outs : List (String × ExpertOutput))
    (weights : List (String × ℝ)) : List (String × ExpertContribution) :=
  outs.map (fun x => (x.1,
    { weight := lookupWeight weights x.1,
      contribution := x.2.probabilities,
      confidence := x.2.confidence_score }))

/-- `ExpertAggregator._calculate_overall_confidence`. -/
noncomputable def overallConfidence (contribs : List (String × ExpertContribution)) : ℝ :=
  if contribs = [] then 0
  else
    let total_confidence := (contribs.map (fun c => c.2.confidence * c.2.weight)).sum
    let total_weight := (contribs.map (fun c => c.2.weight)).sum
    if 0 < total_weight then total_confidence / total_weight else 0

/-- The head of `_generate_reasoning`'s deterministic string
(`"Decision: BUY | ..."`).  The `:.2f`/percentage formatting of floats in
the remainder is not modelled; no claim reads the success-path reasoning. -/
def reasoningHead (d : DecisionType) : String :=
  match d with
  | .BUY => "Decision: BUY"
  | .HOLD => "Decision: HOLD"
  | .SELL => "Decision: SELL"

/-- `ExpertAggregator.aggregate_experts`
(src/backend/aggregation/expert_aggregator.py:60-117), taking the
already-collected expert outputs (`_run_all_experts` runs LLM-backed
experts, outside the verified core).  An empty map returns the fallback
result; a `ValueError` raised by the `DecisionProbabilities` constructor is
caught by the surrounding `except` and likewise yields the fallback, so the
function is total. -/
noncomputable def aggregateExperts (outs : List (String × ExpertOutput)) :
    AggregationResult :=
  if outs.isEmpty then fallbackResult
  else
    let weights := calculateGatingWeights outs
    let raw := aggregateProbabilitiesRaw outs weights
    match mkDecisionProbabilities raw.1 raw.2.1 raw.2.2 with
    | none => fallbackResult
    | some fp =>
        let contribs := createExpertContributions outs weights
        let decision := determineDecision fp
        { final_probabilities := fp,
          expert_contributions := contribs,
          aggregation_method := "dynamic_gating",
          gating_weights := weights,
          overall_confidence := overallConfidence contribs,
          decision_type := decision,
          reasoning := reasoningHead decision }

/-- The claim's raw-weight formula with the exact entropy
`-Σ p·ln p (p>0)` of spec §4.1 (no `1e-10` guard inside the logarithm),
for comparison with `rawWeight`. -/
noncomputable def entropySpec (l : List ℝ) : ℝ :=
  -(l.map (fun p => if 0 < p then p * Real.log p else 0)).sum

noncomputable def rawWeightSpec (o : ExpertOutput) : ℝ :=
  max 0.1 (o.confidence_score + 0.4 * o.input_data_quality +
    0.4 * (1 - entropySpec o.probabilities.to_list / Real.log 3))

end Aggregator

namespace Metrics

open PortfolioSim (TradeAction)

/-- `TradeRecord` as `MetricsCalculator` reads it: action, success flag,
`value` (= quantity*price), and the total portfolio value of the
before/after state snapshots. -/
structure TradeRecM where
  action : TradeAction
  success : Bool
  value : ℚ
  beforeTV : ℚ
  afterTV : ℚ
deriving Repr, DecidableEq

/-- Portfolio-level trade returns
(src/backend/evaluation/metrics.py:352-368): keep BUY/SELL records (HOLD
excluded, no success filter) and take the relative change of the
portfolio's total value across each trade. -/
def tradeReturns (trade_log : List TradeRecM) : List ℚ :=
  (trade_log.filter (fun t => t.action = .BUY ∨ t.action = .SELL)).map
    (fun t => (t.afterTV - t.beforeTV) / t.beforeTV)

/-- `_calculate_trading_metrics`' profit factor
(src/backend/evaluation/metrics.py:379-382):
`Σ(positive returns) / |Σ(negative returns)|`, and Python's
`float('inf')` — encoded as `none` — when there is no losing trade. -/
def portfolioProfitFactor (trade_log : List TradeRecM) : Option ℚ :=
  let trade_returns := tradeReturns trade_log
  let winning_trades := trade_returns.filter (fun r => 0 < r)
  let losing_trades := trade_returns.filter (fun r => r < 0)
  let total_profit := winning_trades.sum
  let total_loss := |losing_trades.sum|
  if 0 < total_loss then some (total_profit / total_loss) else none

/-- `_calculate_ticker_trading_metrics`' synthesized per-ticker trade
returns (src/backend/evaluation/metrics.py:671-688): when both successful
BUYs and successful SELLs exist and the bought value is positive, one
uniform average-cycle return per SELL; when only successful BUYs exist, a
flat −0.001 per BUY; otherwise no returns. -/
def tickerTradeReturns (ticker_trades : List TradeRecM) : List ℚ :=
  let buy_trades := ticker_trades.filter (fun t => t.action = .BUY ∧ t.success)
  let sell_trades := ticker_trades.filter (fun t => t.action = .SELL ∧ t.success)
  if buy_trades ≠ [] ∧ sell_trades ≠ [] then
    let total_buy_value := (buy_trades.map (fun t => t.value)).sum
    let total_sell_value := (sell_trades.map (fun t => t.value)).sum
    if 0 < total_buy_value then
      List.replicate sell_trades.length
        ((total_sell_value - total_buy_value) / total_buy_value)
    else []
  else if buy_trades ≠ [] then
    List.replicate buy_trades.length (-0.001)
  else []

/-- Per-ticker profit factor
(src/backend/evaluation/metrics.py:664-705): over the synthesized return
list, `Σ wins / |Σ losses|` when there is a losing return, and the number
0.0 — not the portfolio level's `float('inf')` — otherwise (also when the
trade or return list is empty). -/
def tickerProfitFactor (ticker_trades : List TradeRecM) : Option ℚ :=
  if ticker_trades = [] then some 0
  else
    let trade_returns := tickerTradeReturns ticker_trades
    if trade_returns = [] then some 0
    else
      let winning_trades := trade_returns.filter (fun r => 0 < r)
      let losing_trades := trade_returns.filter (fun r => r < 0)
      let total_wins := winning_trades.sum
      let total_losses := |losing_trades.sum|
      if 0 < total_losses then some (total_wins / total_losses) else some 0

end Metrics

namespace Backtester

/-- One ticker's loaded price series: (trading day, close).  Days are
modelled as integers (orderable calendar points). -/
abbrev PriceSeries := List (ℤ × ℚ)

def seriesDates (ser : PriceSeries) : List ℤ := ser.map Prod.fst

def lookupSeries (pd : List (String × PriceSeries)) (t : String) :
    Option PriceSeries :=
  (pd.find? (fun x => x.1 = t)).map Prod.snd

def closeAt (ser : PriceSeries) (d : ℤ) : Option ℚ :=
  (ser.find? (fun x => x.1 = d)).map Prod.snd

/-- `HighPerformanceBacktester.run_backtest` trading-day list
(src/backend/evaluation/backtester.py:126-136): the UNION of all loaded
tickers' dates (`all_dates.update(ticker_data.index)` over a set),
sorted, filtered to `[start_date, end_date]`.  `sorted(list(set(...)))`
is modelled as `dedup` followed by a sort. -/
def tradingDates (pd : List (String × PriceSeries)) (start_date end_date : ℤ) :
    List ℤ :=
  (((pd.map (fun x => seriesDates x.2)).flatten.dedup).insertionSort (· ≤ ·)).filter
    (fun d => start_date ≤ d ∧ d ≤ end_date)

/-- Whether the daily loop processes ticker `t` on day `d`
(src/backend/evaluation/backtester.py:152-168): the day must be in the
loop's date list, the ticker must be among the loaded price data, the day
must be in that ticker's own index, and the close there must be positive
(NaN cannot arise over `ℚ`). -/
def processes (pd : List (String × PriceSeries)) (start_date end_date : ℤ)
    (t : String) (d : ℤ) : Prop :=
  d ∈ tradingDates pd start_date end_date ∧
    match lookupSeries pd t with
    | none => False
    | some ser =>
        d ∈ seriesDates ser ∧
          match closeAt ser d with
          | some c => 0 < c
          | none => False

/-- The day list exactly as the claim words it: calendar days within
`[start, end]` present in the price series of EVERY ticker
(intersection). -/
def tradingDatesClaim (pd : List (String × PriceSeries))
    (start_date end_date : ℤ) : List ℤ :=
  (((pd.map (fun x => seriesDates x.2)).flatten.dedup).insertionSort (· ≤ ·)).filter
    (fun d => start_date ≤ d ∧ d ≤ end_date ∧
      pd.all (fun x => decide (d ∈ seriesDates x.2)))

end Backtester

namespace PortfolioSim

theorem pyInt_cast_le_of_pos {q : ℚ} (h : 0 < pyInt q) : (pyInt q : ℚ) ≤ q := by
  unfold pyInt at *
  by_cases hq : 0 ≤ q
  · simpa [hq] using Int.floor_le q
  · rw [if_neg hq] at h
    exact absurd ((Int.lt_ceil).mp h) (by push_neg at hq ⊢; exact le_of_lt hq)

theorem one_le_calculate_position_size (s : Sim) (price confidence : ℚ)
    (h : 0 < price) : 1 ≤ calculate_position_size s price confidence := by
  unfold calculate_position_size
  rw [if_neg (not_le.mpr h)]
  exact le_trans (le_max_left 1 _) (le_max_right _ _)

theorem posValue_nonneg {m : PosMap} (h : posNonneg m) : 0 ≤ posValue m := by
  apply List.sum_nonneg
  intro x hx
  obtain ⟨y, hy, rfl⟩ := List.mem_map.mp hx
  exact mul_nonneg (by exact_mod_cast (h y hy).1) (h y hy).2

theorem posNonneg_setPos {m : PosMap} {t : String} {pos : EPosition}
    (hm : posNonneg m) (hq : 0 ≤ pos.quantity) (hp : 0 ≤ pos.current_price) :
    posNonneg (setPos m t pos) := by
  intro x hx
  unfold setPos at hx
  by_cases hf : (m.find? (fun x => x.1 = t)).isSome
  · rw [if_pos hf] at hx
    obtain ⟨y, hy, rfl⟩ := List.mem_map.mp hx
    by_cases hyt : y.1 = t
    · simpa [hyt] using ⟨hq, hp⟩
    · simpa [hyt] using hm y hy
  · rw [if_neg hf] at hx
    rcases List.mem_append.mp hx with hx | hx
    · exact hm x hx
    · simp only [List.mem_singleton] at hx
      subst hx; exact ⟨hq, hp⟩

theorem posNonneg_erasePos {m : PosMap} {t : String} (hm : posNonneg m) :
    posNonneg (erasePos m t) :=
  fun x hx => hm x (List.mem_of_mem_filter hx)

theorem lookupPos_mem {m : PosMap} {t : String} {pos : EPosition}
    (h : lookupPos m t = some pos) : ∃ x ∈ m, x.2 = pos := by
  unfold lookupPos at h
  match hf : m.find? (fun x => x.1 = t) with
  | none => rw [hf] at h; simp at h
  | some x =>
      rw [hf] at h
      simp only [Option.map_some', Option.some.injEq] at h
      exact ⟨x, List.mem_of_find?_eq_some hf, h⟩

theorem doBuy_eq (s : Sim) (t : String) (q : ℤ) (price : ℚ) :
    doBuy s t q price = updatePortfolioState
      { s with cash := s.cash - buyCost s.config q price,
               positions :=
                 match lookupPos s.positions t with
                 | some pos => setPos s.positions t (pos.add_quantity q price)
                 | none => setPos s.positions t (mkEPosition t q price price) } := by
  unfold doBuy buyCost
  cases hl : lookupPos s.positions t <;> simp [hl]

theorem doBuy_cash (s : Sim) (t : String) (q : ℤ) (price : ℚ) :
    (doBuy s t q price).cash = s.cash - buyCost s.config q price := by
  rw [doBuy_eq]; rfl

theorem WF_updatePortfolioState {s : Sim} (h0 : 0 ≤ s.cash)
    (h1 : posNonneg s.positions) : WF (updatePortfolioState s) :=
  ⟨h0, h1, add_nonneg h0 (posValue_nonneg h1)⟩

theorem WF_doBuy {s : Sim} {t : String} {q : ℤ} {price : ℚ}
    (hpos : posNonneg s.positions) (hq : 0 ≤ q) (hp : 0 ≤ price)
    (hcash : 0 ≤ s.cash - buyCost s.config q price) :
    WF (doBuy s t q price) := by
  rw [doBuy_eq]
  cases hl : lookupPos s.positions t with
  | some pos =>
      simp only [hl]
      obtain ⟨x, hx, hx2⟩ := lookupPos_mem hl
      have h1 := (hpos x hx).1
      have h2 := (hpos x hx).2
      rw [hx2] at h1 h2
      refine WF_updatePortfolioState hcash (posNonneg_setPos hpos ?_ ?_)
      · simp only [EPosition.add_quantity, EPosition.update_price]
        omega
      · simpa [EPosition.add_quantity, EPosition.update_price] using h2
  | none =>
      simp only [hl]
      exact WF_updatePortfolioState hcash
        (posNonneg_setPos hpos (by simpa [mkEPosition] using hq)
          (by simpa [mkEPosition] using hp))


theorem updatePortfolioState_config (s : Sim) :
    (updatePortfolioState s).config = s.config := rfl

theorem doBuy_config (s : Sim) (t : String) (q : ℤ) (price : ℚ) :
    (doBuy s t q price).config = s.config := by
  rw [doBuy_eq]; rfl

theorem WF_executeBuy {s : Sim} {t : String} {q : ℤ} {price : ℚ}
    (hcfg : validConfig s.config) (hWF : WF s) (hp : 0 < price) (hq : 1 ≤ q) :
    WF (executeBuy s t q price).1 := by
  obtain ⟨htc, hsl, hts, hmcr⟩ := hcfg
  obtain ⟨hc, hpos, htv⟩ := hWF
  have hres : 0 ≤ s.stateTotalValue * s.config.min_cash_reserve := mul_nonneg htv hmcr
  simp only [executeBuy, check_cash_availability]
  split
  · next hA =>
      rw [decide_eq_true_eq] at hA
      exact WF_doBuy hpos (by omega) hp.le (by simp only [buyCost]; linarith)
  · next hA =>
      have hden : 0 < price * (1 + s.config.transaction_cost + s.config.slippage) :=
        mul_pos hp (by linarith)
      rw [if_pos hden]
      split
      · next hmq =>
          have hle := pyInt_cast_le_of_pos hmq
          have hcast : (0 : ℚ) ≤ (pyInt ((s.cash - s.stateTotalValue * s.config.min_cash_reserve) /
              (price * (1 + s.config.transaction_cost + s.config.slippage))) : ℚ) := by
            exact_mod_cast hmq.le
          have hmul := mul_le_mul_of_nonneg_right hle hden.le
          rw [div_mul_cancel₀ _ hden.ne'] at hmul
          refine WF_doBuy hpos (by exact_mod_cast hmq.le) hp.le ?_
          simp only [buyCost]
          nlinarith [hmul, hres]
      · exact ⟨hc, hpos, htv⟩

theorem WF_sellFinish {s : Sim} {t : String} {position : EPosition} {Q : ℤ}
    {price : ℚ} (hpos : posNonneg s.positions) (hcash : 0 ≤ s.cash)
    (hQ : 0 ≤ Q) (hp : 0 < price)
    (hts : s.config.transaction_cost + s.config.slippage ≤ 1) :
    WF (updatePortfolioState
      (if (position.reduce_quantity Q price).quantity = 0 then
        { s with cash := s.cash + ((Q : ℚ) * price -
            (Q : ℚ) * price * s.config.transaction_cost -
            (Q : ℚ) * price * s.config.slippage),
                 positions := erasePos s.positions t }
      else
        { s with cash := s.cash + ((Q : ℚ) * price -
            (Q : ℚ) * price * s.config.transaction_cost -
            (Q : ℚ) * price * s.config.slippage),
                 positions := setPos s.positions t (position.reduce_quantity Q price) })) := by
  have htv0 : (0 : ℚ) ≤ (Q : ℚ) * price :=
    mul_nonneg (by exact_mod_cast hQ) hp.le
  have hcash' : 0 ≤ s.cash + ((Q : ℚ) * price -
      (Q : ℚ) * price * s.config.transaction_cost -
      (Q : ℚ) * price * s.config.slippage) := by nlinarith
  split
  · exact WF_updatePortfolioState hcash' (posNonneg_erasePos hpos)
  · refine WF_updatePortfolioState hcash' (posNonneg_setPos hpos ?_ ?_)
    · simp only [EPosition.reduce_quantity, EPosition.update_price]
      split <;> dsimp only <;> omega
    · simp [EPosition.reduce_quantity, EPosition.update_price, hp.le]

theorem WF_executeSell {s : Sim} {t : String} {q : ℤ} {price : ℚ}
    (hcfg : validConfig s.config) (hWF : WF s) (hp : 0 < price) (hq : 0 ≤ q) :
    WF (executeSell s t q price).1 := by
  obtain ⟨htc, hsl, hts, hmcr⟩ := hcfg
  obtain ⟨hc, hpos, htv⟩ := hWF
  unfold executeSell
  cases hl : lookupPos s.positions t with
  | none => exact ⟨hc, hpos, htv⟩
  | some position =>
      simp only
      obtain ⟨x, hx, hx2⟩ := lookupPos_mem hl
      have h1 := (hpos x hx).1
      rw [hx2] at h1
      split
      · exact WF_sellFinish hpos hc h1 hp hts
      · exact WF_sellFinish hpos hc hq hp hts

theorem WF_executeTrade (s : Sim) (t : String) (a : TradeAction) (price conf : ℚ)
    (hcfg : validConfig s.config) (hWF : WF s) (hp : 0 < price) :
    WF (executeTrade s t a price conf).1 := by
  cases a with
  | HOLD => exact hWF
  | BUY => exact WF_executeBuy hcfg hWF hp (one_le_calculate_position_size s price conf hp)
  | SELL =>
      exact WF_executeSell hcfg hWF hp
        (le_trans zero_le_one (one_le_calculate_position_size s price conf hp))

theorem executeBuy_config (s : Sim) (t : String) (q : ℤ) (price : ℚ) :
    (executeBuy s t q price).1.config = s.config := by
  simp only [executeBuy, check_cash_availability]
  split
  · exact doBuy_config ..
  · split
    · split
      · exact doBuy_config ..
      · rfl
    · rfl

theorem executeSell_config (s : Sim) (t : String) (q : ℤ) (price : ℚ) :
    (executeSell s t q price).1.config = s.config := by
  unfold executeSell
  cases lookupPos s.positions t with
  | none => rfl
  | some position => simp only; split <;> split <;> rfl

theorem executeTrade_config (s : Sim) (t : String) (a : TradeAction)
    (price conf : ℚ) : (executeTrade s t a price conf).1.config = s.config := by
  cases a with
  | HOLD => rfl
  | BUY => exact executeBuy_config ..
  | SELL => exact executeSell_config ..

theorem WF_runTrades (cmds : List Cmd) : ∀ s : Sim, validConfig s.config → WF s →
    (∀ c ∈ cmds, 0 < c.price) →
    WF (runTrades s cmds) ∧ (runTrades s cmds).config = s.config := by
  induction cmds with
  | nil => intro s hv hw _; exact ⟨hw, rfl⟩
  | cons c cs ih =>
      intro s hv hw hp
      have hstep := WF_executeTrade s c.ticker c.action c.price c.confidence
        hv hw (hp c (List.mem_cons_self c cs))
      have hconf := executeTrade_config s c.ticker c.action c.price c.confidence
      have := ih (executeTrade s c.ticker c.action c.price c.confidence).1
        (by rw [hconf]; exact hv) hstep
        (fun d hd => hp d (List.mem_cons_of_mem c hd))
      simp only [runTrades, List.foldl_cons] at this ⊢
      exact ⟨this.1, this.2.trans hconf⟩

/-- C1: starting from a non-negative initial capital, for every sequence of
`executeTrade` calls (BUY/SELL/HOLD with positive price and arbitrary
confidence) under a sane configuration (non-negative cost, slippage and
minimum-reserve fractions, with cost + slippage ≤ 1, as in the shipped
defaults), the simulator's cash balance is ≥ 0 after every call. -/
theorem cash_never_negative (cfg : PSConfig) (hcfg : validConfig cfg)
    (hinit : 0 ≤ cfg.initial_capital) (cmds : List Cmd)
    (hp : ∀ c ∈ cmds, 0 < c.price) (n : ℕ) :
    0 ≤ (runTrades (initSim cfg) (cmds.take n)).cash := by
  have hWF : WF (initSim cfg) :=
    ⟨hinit, by intro x hx; simp [initSim] at hx, hinit⟩
  exact (WF_runTrades (cmds.take n) (initSim cfg) hcfg hWF
    (fun c hc => hp c (List.take_subset n cmds hc))).1.1

/-- Witness for C1 at the shipped default configuration and a concrete
BUY/SELL/HOLD sequence. -/
theorem cash_never_negative_witness :
    0 ≤ (runTrades (initSim {})
      (List.take 3 [⟨"A", .BUY, 50, 0.8⟩, ⟨"A", .SELL, 50, 1⟩,
                    ⟨"A", .HOLD, 10, 0⟩])).cash :=
  cash_never_negative {}
    ⟨by norm_num, by norm_num, by norm_num, by norm_num⟩
    (by norm_num) _ (by decide) 3


theorem le_pyInt {n : ℤ} {q : ℚ} (h : (n : ℚ) ≤ q) : n ≤ pyInt q := by
  unfold pyInt; split
  · exact Int.le_floor.mpr h
  · exact le_trans (Int.le_floor.mpr h) (Int.floor_le_ceil q)

theorem pyInt_eq_floor {q : ℚ} (h : 0 ≤ q) : pyInt q = ⌊q⌋ := if_pos h

/-- C5: a BUY whose total cost `price*shares*(1+cost+slippage)` exceeds the
available cash (cash minus `totalValue*minCashReserve`) is shrunk to the
largest affordable share count (executed with `success = true` and the
correspondingly smaller debit); if not even one share is affordable the call
returns a `success = false` record and the simulator state is unchanged.
The embedding is a total function, mirroring that this path raises no
exception. -/
theorem buy_shrink_or_reject (s : Sim) (t : String) (price conf : ℚ)
    (htc : 0 ≤ s.config.transaction_cost) (hsl : 0 ≤ s.config.slippage)
    (hp : 0 < price)
    (hins : ¬ ((check_cash_availability s
      (buyCost s.config (calculate_position_size s price conf) price)).1 = true)) :
    (0 < maxAffordable s price →
      (executeTrade s t .BUY price conf).2.success = true ∧
      (executeTrade s t .BUY price conf).2.quantity = maxAffordable s price ∧
      (executeTrade s t .BUY price conf).1.cash =
        s.cash - buyCost s.config (maxAffordable s price) price ∧
      (∀ n : ℤ, buyCost s.config n price ≤
          s.cash - s.stateTotalValue * s.config.min_cash_reserve →
        n ≤ maxAffordable s price)) ∧
    (maxAffordable s price ≤ 0 →
      (executeTrade s t .BUY price conf).2.success = false ∧
      (executeTrade s t .BUY price conf).1 = s) := by
  have hden : 0 < price * (1 + s.config.transaction_cost + s.config.slippage) :=
    mul_pos hp (by linarith)
  have hred : executeTrade s t .BUY price conf =
      executeBuy s t (calculate_position_size s price conf) price := rfl
  rw [hred]
  simp only [executeBuy, check_cash_availability, buyCost] at hins ⊢
  rw [if_neg hins, if_pos hden]
  constructor
  · intro hmq
    rw [if_pos (show 0 < pyInt _ from hmq)]
    refine ⟨rfl, rfl, doBuy_cash .., ?_⟩
    intro n hn
    apply le_pyInt
    rw [le_div_iff₀ hden]
    nlinarith [hn]
  · intro hmq
    rw [if_neg (show ¬ 0 < pyInt _ by exact not_lt.mpr hmq)]
    exact ⟨rfl, rfl⟩

/-- Witness for C5: with the default config, (a) cash 14, portfolio value
100, price 3: the 2-share order is shrunk to 1 share; (b) cash 15,
portfolio value 100, price 9: the 1-share order is rejected with no state
change. -/
theorem buy_shrink_or_reject_witness :
    ((executeTrade (simCash 14 100) "A" .BUY 3 1).2.success = true ∧
      (executeTrade (simCash 14 100) "A" .BUY 3 1).2.quantity = 1) ∧
    ((executeTrade (simCash 15 100) "B" .BUY 9 1).2.success = false ∧
      (executeTrade (simCash 15 100) "B" .BUY 9 1).1 = simCash 15 100) := by
  have hA := buy_shrink_or_reject (simCash 14 100) "A" 3 1
    (by norm_num [simCash]) (by norm_num [simCash]) (by norm_num)
    (by norm_num [check_cash_availability, buyCost, calculate_position_size, simCash, pyInt])
  have hB := buy_shrink_or_reject (simCash 15 100) "B" 9 1
    (by norm_num [simCash]) (by norm_num [simCash]) (by norm_num)
    (by norm_num [check_cash_availability, buyCost, calculate_position_size, simCash, pyInt])
  have hA' := hA.1 (by norm_num [maxAffordable, simCash, pyInt])
  have hB' := hB.2 (by norm_num [maxAffordable, simCash, pyInt])
  exact ⟨⟨hA'.1, by rw [hA'.2.1]; norm_num [maxAffordable, simCash, pyInt]⟩, hB'⟩

/-- C6 (counterexample): with portfolio value 100 and price 50 the code
orders 1 share (`min_shares = max(1, int(1%/price))` floors at one share),
while the claim's clamp to `[floor(0.01*pv/price), floor(maxpos*pv/price)]`
yields 0 shares. -/
theorem position_size_claim_counterexample :
    calculate_position_size (simCash 100 100) 50 1 = 1 ∧
    positionSizeClaim 100 0.08 0.25 50 1 = 0 := by
  constructor <;>
    norm_num [calculate_position_size, positionSizeClaim, simCash, pyInt, max_def, min_def]

/-- C6 (amended): for positive price, non-negative confidence and
non-negative sizing fractions, the ordered share count is
`floor(pv*sizing*(0.5+0.5*conf)/price)` clamped first to the cap
`floor(maxPositionSize*pv/price)` and then raised to the floor
`max(1, floor(0.01*pv/price))` — i.e. the one-share minimum dominates the
cap when the two clamps conflict. -/
theorem calculate_position_size_closed_form (s : Sim) (price conf : ℚ)
    (hp : 0 < price) (htv : 0 ≤ s.stateTotalValue) (hconf : 0 ≤ conf)
    (hsz : 0 ≤ s.config.position_sizing) (hmx : 0 ≤ s.config.max_position_size) :
    calculate_position_size s price conf =
      max (max 1 ⌊s.stateTotalValue * 0.01 / price⌋)
        (min ⌊s.stateTotalValue * s.config.position_sizing * (0.5 + conf * 0.5) / price⌋
          ⌊s.stateTotalValue * s.config.max_position_size / price⌋) := by
  unfold calculate_position_size
  rw [if_neg (not_le.mpr hp)]
  have h1 : (0 : ℚ) ≤ s.stateTotalValue * s.config.position_sizing * (0.5 + conf * 0.5) / price :=
    div_nonneg (mul_nonneg (mul_nonneg htv hsz) (by linarith)) hp.le
  have h2 : (0 : ℚ) ≤ s.stateTotalValue * s.config.max_position_size / price :=
    div_nonneg (mul_nonneg htv hmx) hp.le
  have h3 : (0 : ℚ) ≤ s.stateTotalValue * 0.01 / price :=
    div_nonneg (mul_nonneg htv (by norm_num)) hp.le
  simp only [pyInt_eq_floor h1, pyInt_eq_floor h2, pyInt_eq_floor h3]
  rw [max_comm]

/-- Witness for C6 (amended): capital $100,000, confidence 0.8, price $50,
position sizing 8% gives a 144-share order. -/
theorem calculate_position_size_closed_form_witness :
    calculate_position_size (simCash 100000 100000) 50 0.8 = 144 := by
  rw [calculate_position_size_closed_form (simCash 100000 100000) 50 0.8 (by norm_num)
    (by norm_num [simCash]) (by norm_num) (by norm_num [simCash]) (by norm_num [simCash])]
  simp only [simCash]
  norm_num [max_def, min_def]


/-- C9: the history snapshots are NOT insulated from later mutations.
`create_evaluation_portfolio_state` stores the simulator's live
`self.positions` dict in the snapshot without copying, so a later
`update_prices` call changes what an earlier snapshot's position map
reads.  Concretely: buy 80 shares of AAPL at $100 (the day's snapshot then
shows the AAPL position marked at $100), then update AAPL's price to $200
— re-reading the same snapshot's position map now shows $200. -/
theorem snapshot_positions_alias_live_state :
    ((lookupPos (snapshotPositions
        ((executeTrade (simCash 100000 100000) "AAPL" .BUY 100 1).1) 0)
        "AAPL").map EPosition.current_price = some 100) ∧
    ((lookupPos (snapshotPositions
        (update_prices ((executeTrade (simCash 100000 100000) "AAPL" .BUY 100 1).1)
          [("AAPL", 200)]) 0)
        "AAPL").map EPosition.current_price = some 200) := by
  constructor <;>
    norm_num [executeTrade, executeBuy, doBuy, check_cash_availability,
      calculate_position_size, pyInt, simCash, lookupPos, setPos,
      snapshotPositions, update_prices, updatePortfolioState, posValue,
      mkEPosition, EPosition.update_price, List.find?]

end PortfolioSim

namespace Aggregator

/-- C2 (amended): with zero experts present, `aggregate_experts` returns
(rather than raising) the hard-coded fallback result: probabilities
(buy=0, hold=1, sell=0), decision HOLD, overall confidence 0.1, empty
contribution map, and the reasoning string
"Aggregation failed - using fallback decision". -/
theorem aggregate_experts_empty_fallback :
    (aggregateExperts []).final_probabilities.buy_probability = 0 ∧
    (aggregateExperts []).final_probabilities.hold_probability = 1 ∧
    (aggregateExperts []).final_probabilities.sell_probability = 0 ∧
    (aggregateExperts []).decision_type = .HOLD ∧
    (aggregateExperts []).overall_confidence = 0.1 ∧
    (aggregateExperts []).expert_contributions = [] ∧
    (aggregateExperts []).reasoning = "Aggregation failed - using fallback decision" :=
  ⟨rfl, rfl, rfl, rfl, rfl, rfl, rfl⟩

/-- C2 (counterexample): the fallback reasoning string is
"Aggregation failed - using fallback decision", not "aggregation failed"
as the claim states. -/
theorem fallback_reasoning_counterexample :
    (aggregateExperts []).reasoning ≠ "aggregation failed" := by
  simp [aggregateExperts, fallbackResult]

/-- C3: the decision is the argmax of (buy, hold, sell) with ties broken
in the priority order buy, then sell, then hold: BUY whenever buy attains
the maximum (ties included), else SELL whenever sell attains the maximum,
else HOLD. -/
theorem determine_decision_argmax (p : DecisionProbabilities) :
    ((p.hold_probability ≤ p.buy_probability ∧
        p.sell_probability ≤ p.buy_probability) →
      determineDecision p = .BUY) ∧
    (¬(p.hold_probability ≤ p.buy_probability ∧
        p.sell_probability ≤ p.buy_probability) →
      p.hold_probability ≤ p.sell_probability → determineDecision p = .SELL) ∧
    (¬(p.hold_probability ≤ p.buy_probability ∧
        p.sell_probability ≤ p.buy_probability) →
      p.sell_probability < p.hold_probability → determineDecision p = .HOLD) := by
  refine ⟨?_, ?_, ?_⟩
  · rintro ⟨h1, h2⟩
    have hmax : max p.buy_probability (max p.hold_probability p.sell_probability) =
        p.buy_probability := max_eq_left (max_le h1 h2)
    simp [determineDecision, hmax]
  · intro h1 h2
    have hor : p.buy_probability < p.hold_probability ∨
        p.buy_probability < p.sell_probability := by
      by_contra hc
      push_neg at hc
      exact h1 ⟨hc.1, hc.2⟩
    have hbs : p.buy_probability < p.sell_probability := by
      rcases hor with h | h
      · exact lt_of_lt_of_le h h2
      · exact h
    have hmax : max p.buy_probability (max p.hold_probability p.sell_probability) =
        p.sell_probability := by
      rw [max_eq_right h2]
      exact max_eq_right hbs.le
    have hne : max p.buy_probability (max p.hold_probability p.sell_probability) ≠
        p.buy_probability := by
      rw [hmax]
      exact ne_of_gt hbs
    simp [determineDecision, hne, hmax, ne_of_gt hbs]
  · intro h1 h2
    have hor : p.buy_probability < p.hold_probability ∨
        p.buy_probability < p.sell_probability := by
      by_contra hc
      push_neg at hc
      exact h1 ⟨hc.1, hc.2⟩
    have hbh : p.buy_probability < p.hold_probability := by
      rcases hor with h | h
      · exact h
      · exact lt_trans h h2
    have hmax : max p.buy_probability (max p.hold_probability p.sell_probability) =
        p.hold_probability := by
      rw [max_eq_left h2.le]
      exact max_eq_right hbh.le
    have hne1 : max p.buy_probability (max p.hold_probability p.sell_probability) ≠
        p.buy_probability := by
      rw [hmax]
      exact ne_of_gt hbh
    have hne2 : max p.buy_probability (max p.hold_probability p.sell_probability) ≠
        p.sell_probability := by
      rw [hmax]
      exact ne_of_gt h2
    simp [determineDecision, hne1, hne2]

/-- Witness for C3 at the exact-tie input (1/3, 1/3, 1/3): the priority
order picks BUY. -/
theorem determine_decision_argmax_witness :
    determineDecision ⟨1/3, 1/3, 1/3⟩ = .BUY :=
  (determine_decision_argmax ⟨1/3, 1/3, 1/3⟩).1 ⟨le_refl _, le_refl _⟩


theorem rawWeight_ge (o : ExpertOutput) : (0.1 : ℝ) ≤ rawWeight o :=
  le_max_left _ _

theorem totalWeight_nonneg (outs : List (String × ExpertOutput)) :
    0 ≤ totalWeight outs := by
  unfold totalWeight gatingWeightsRaw
  rw [List.map_map]
  apply List.sum_nonneg
  intro x hx
  obtain ⟨y, _, rfl⟩ := List.mem_map.mp hx
  exact le_trans (by norm_num) (rawWeight_ge y.2)

theorem totalWeight_pos {outs : List (String × ExpertOutput)} (hne : outs ≠ []) :
    0 < totalWeight outs := by
  obtain ⟨o, rest, rfl⟩ := List.exists_cons_of_ne_nil hne
  have h2 := totalWeight_nonneg rest
  have h1 := rawWeight_ge o.2
  have hsplit : totalWeight (o :: rest) = rawWeight o.2 + totalWeight rest := by
    unfold totalWeight gatingWeightsRaw
    rw [List.map_map, List.map_map, List.map_cons, List.sum_cons]
    rfl
  rw [hsplit]
  linarith

/-- C4 (amended): for every non-empty expert map, each raw gating weight is
`max(0.1, confidence + 0.4*dataQuality + 0.4*certainty)` where the
certainty uses the code's epsilon-guarded entropy
`-Σ p·ln(p + 1e-10) (p>0)` normalized by `ln 3`; the normalized weights
are non-negative and sum to exactly 1 (hence within 1e-6 of 1). -/
theorem gating_weights_spec (outs : List (String × ExpertOutput))
    (hne : outs ≠ []) :
    gatingWeightsRaw outs = outs.map (fun x => (x.1,
      max 0.1 (x.2.confidence_score + 0.4 * x.2.input_data_quality +
        0.4 * (1 - entropyCode x.2.probabilities.to_list / Real.log 3)))) ∧
    (∀ x ∈ calculateGatingWeights outs, 0 ≤ x.2) ∧
    ((calculateGatingWeights outs).map Prod.snd).sum = 1 := by
  have htot := totalWeight_pos hne
  refine ⟨?_, ?_, ?_⟩
  · unfold gatingWeightsRaw rawWeight
    congr 1
    funext x
    congr 2
    ring
  · intro x hx
    unfold calculateGatingWeights at hx
    rw [if_pos htot] at hx
    obtain ⟨y, hy, rfl⟩ := List.mem_map.mp hx
    obtain ⟨z, _, rfl⟩ := List.mem_map.mp hy
    exact div_nonneg (le_trans (by norm_num) (rawWeight_ge z.2)) htot.le
  · unfold calculateGatingWeights
    rw [if_pos htot]
    rw [List.map_map]
    have hfun : (Prod.snd ∘ fun x : String × ℝ => (x.1, x.2 / totalWeight outs)) =
        (fun x : String × ℝ => x.2 * (totalWeight outs)⁻¹) := by
      funext x
      simp [div_eq_mul_inv]
    rw [hfun, List.sum_map_mul_right]
    exact mul_inv_cancel₀ htot.ne'

/-- Witness for C4 at a single-expert map. -/
theorem gating_weights_spec_witness :
    ((calculateGatingWeights
      [("sentiment", ⟨⟨0.6, 0.3, 0.1⟩, 0.8, 0.9⟩)]).map Prod.snd).sum = 1 :=
  (gating_weights_spec [("sentiment", ⟨⟨0.6, 0.3, 0.1⟩, 0.8, 0.9⟩)]
    (by simp)).2.2

/-- C4 (counterexample): against the claim's exact entropy
`-Σ p·ln p (p>0)` (spec §4.1), the code's raw weight differs: at
probabilities (1, 0, 0) with confidence 0 and data quality 0, the exact
formula gives 0.4, while the code's `ln(p + 1e-10)` guard makes the
certainty exceed 1 and the weight strictly exceed 0.4. -/
theorem gating_weight_epsilon_counterexample :
    rawWeight ⟨⟨1, 0, 0⟩, 0, 0⟩ ≠ rawWeightSpec ⟨⟨1, 0, 0⟩, 0, 0⟩ := by
  have hlog3 : 0 < Real.log 3 := Real.log_pos (by norm_num)
  have hd : 0 < Real.log (1 + 1e-10) := Real.log_pos (by norm_num)
  have hdd : 0 < Real.log (1 + 1e-10) / Real.log 3 := div_pos hd hlog3
  have hspec : rawWeightSpec ⟨⟨1, 0, 0⟩, 0, 0⟩ = 0.4 := by
    unfold rawWeightSpec entropySpec DecisionProbabilities.to_list
    norm_num [Real.log_one]
  have hcode : rawWeight ⟨⟨1, 0, 0⟩, 0, 0⟩ =
      max 0.1 ((1 + Real.log (1 + 1e-10) / Real.log 3) * 0.4) := by
    unfold rawWeight entropyCode DecisionProbabilities.to_list
    norm_num
    ring_nf
  have harg : (0.4 : ℝ) < (1 + Real.log (1 + 1e-10) / Real.log 3) * 0.4 := by
    nlinarith [hdd]
  rw [hspec, hcode, max_eq_right (by linarith : (0.1 : ℝ) ≤ _)]
  exact ne_of_gt harg

/-- C7 (amended): `DecisionProbabilities` construction fails exactly when
the probability sum is farther from 1 than numpy's
`isclose(total, 1.0, atol=1e-6)` tolerance `1e-6 + 1e-5·|1|` (the default
`rtol = 1e-5` dominates the claimed 1e-6); the components are not
sign-checked, and accepted inputs are stored exactly as given (no
normalization or coercion). -/
theorem mk_decision_probabilities_spec (b h s : ℝ) :
    ((mkDecisionProbabilities b h s).isSome ↔ |b + h + s - 1| ≤ 1e-6 + 1e-5) ∧
    (∀ p, mkDecisionProbabilities b h s = some p →
      p.buy_probability = b ∧ p.hold_probability = h ∧ p.sell_probability = s) := by
  unfold mkDecisionProbabilities
  by_cases hcl : |b + h + s - 1| ≤ 1e-6 + 1e-5 * |(1 : ℝ)|
  · rw [if_pos hcl]
    refine ⟨⟨fun _ => by simpa using hcl, fun _ => rfl⟩, ?_⟩
    intro p hp
    obtain rfl : (⟨b, h, s⟩ : DecisionProbabilities) = p := Option.some.inj hp
    exact ⟨rfl, rfl, rfl⟩
  · rw [if_neg hcl]
    refine ⟨⟨fun hof => absurd hof (by simp), fun hcl2 => absurd ?_ hcl⟩, ?_⟩
    · simpa using hcl2
    · intro p hp
      exact absurd hp (by simp)

/-- Witness for C7 (amended) at the valid input (0.2, 0.3, 0.5). -/
theorem mk_decision_probabilities_spec_witness :
    (mkDecisionProbabilities 0.2 0.3 0.5).isSome ∧
    ∀ p, mkDecisionProbabilities 0.2 0.3 0.5 = some p →
      p.buy_probability = 0.2 ∧ p.hold_probability = 0.3 ∧
      p.sell_probability = 0.5 :=
  ⟨(mk_decision_probabilities_spec 0.2 0.3 0.5).1.mpr (by norm_num [abs_le]),
   (mk_decision_probabilities_spec 0.2 0.3 0.5).2⟩

/-- C7 (counterexample): a negative component is accepted when the sum is
close to 1 — `DecisionProbabilities(-0.5, 1.5, 0.0)` constructs — and a
sum 5e-6 away from 1 (outside the claimed 1e-6) is also accepted. -/
theorem mk_decision_probabilities_counterexample :
    mkDecisionProbabilities (-0.5) 1.5 0 = some ⟨-0.5, 1.5, 0⟩ ∧
    mkDecisionProbabilities 0.4 0.3 0.300005 = some ⟨0.4, 0.3, 0.300005⟩ ∧
    ¬(|(0.4 : ℝ) + 0.3 + 0.300005 - 1| ≤ 1e-6) := by
  refine ⟨?_, ?_, by rw [abs_le]; norm_num⟩
  · unfold mkDecisionProbabilities
    rw [if_pos (by rw [abs_le]; norm_num)]
  · unfold mkDecisionProbabilities
    rw [if_pos (by rw [abs_le]; norm_num)]

end Aggregator

namespace Metrics

theorem list_sum_neg {l : List ℚ} (h : ∀ x ∈ l, x < 0) (hne : l ≠ []) :
    l.sum < 0 := by
  induction l with
  | nil => exact absurd rfl hne
  | cons a t ih =>
      rw [List.sum_cons]
      rcases eq_or_ne t [] with rfl | htne
      · simpa using h a (List.mem_cons_self a [])
      · have ht := ih (fun x hx => h x (List.mem_cons_of_mem a hx)) htne
        have ha := h a (List.mem_cons_self a t)
        linarith

/-- C10 (amended): the per-ticker profit factor is computed over the
synthesized per-ticker return list (one uniform average-cycle return per
successful SELL when successful BUYs and SELLs both exist, −0.001 per
successful BUY when only BUYs exist): it equals
`Σ(positive returns) / |Σ(negative returns)|` when a losing return exists
and is the number 0.0 — not the portfolio level's +∞ sentinel — when
there is none. -/
theorem ticker_profit_factor_spec (ts : List TradeRecM) :
    ((tickerTradeReturns ts).filter (fun r => r < 0) = [] →
      tickerProfitFactor ts = some 0) ∧
    ((tickerTradeReturns ts).filter (fun r => r < 0) ≠ [] →
      tickerProfitFactor ts =
        some (((tickerTradeReturns ts).filter (fun r => 0 < r)).sum /
          |((tickerTradeReturns ts).filter (fun r => r < 0)).sum|)) := by
  simp only [tickerProfitFactor]
  constructor
  · intro hno
    split
    · rfl
    · split
      · rfl
      · simp only [hno]
        norm_num
  · intro hyes
    have hneg : ((tickerTradeReturns ts).filter (fun r => r < 0)).sum < 0 :=
      list_sum_neg (fun x hx => by simpa using (List.mem_filter.mp hx).2) hyes
    split
    · next hts =>
        exact absurd (by rw [hts]; rfl) hyes
    · split
      · next hret =>
          exact absurd (by rw [hret]; rfl) hyes
      · rw [if_pos (abs_pos.mpr hneg.ne)]

/-- Witness for C10 (amended): a lone successful BUY synthesizes the
single losing return −0.001 (profit factor 0/0.001); a successful
BUY+SELL pair with positive average return has no losing return and gets
the 0.0 sentinel. -/
theorem ticker_profit_factor_spec_witness :
    tickerProfitFactor [⟨.BUY, true, 100, 1000, 1001⟩] =
      some ((((tickerTradeReturns
        [⟨.BUY, true, 100, 1000, 1001⟩]).filter (fun r => 0 < r)).sum) /
        |((tickerTradeReturns
        [⟨.BUY, true, 100, 1000, 1001⟩]).filter (fun r => r < 0)).sum|) ∧
    tickerProfitFactor
      [⟨.BUY, true, 100, 1000, 1001⟩, ⟨.SELL, true, 110, 1001, 1002⟩] = some 0 :=
  ⟨(ticker_profit_factor_spec _).2 (by norm_num [tickerTradeReturns, List.filter_cons,
      (by decide : PortfolioSim.TradeAction.BUY ≠ PortfolioSim.TradeAction.SELL),
      (by decide : PortfolioSim.TradeAction.SELL ≠ PortfolioSim.TradeAction.BUY)]),
   (ticker_profit_factor_spec _).1 (by norm_num [tickerTradeReturns, List.filter_cons,
      (by decide : PortfolioSim.TradeAction.BUY ≠ PortfolioSim.TradeAction.SELL),
      (by decide : PortfolioSim.TradeAction.SELL ≠ PortfolioSim.TradeAction.BUY)])⟩

/-- C10 (counterexample): one successful BUY (value 100) and one
successful SELL (value 110), both increasing the portfolio's total value:
there is no losing trade under either formula, the portfolio-level profit
factor is the +∞ sentinel (`none`), but the per-ticker profit factor is
the number 0.0. -/
theorem ticker_profit_factor_counterexample :
    tickerProfitFactor
      [⟨.BUY, true, 100, 1000, 1001⟩, ⟨.SELL, true, 110, 1001, 1002⟩] = some 0 ∧
    portfolioProfitFactor
      [⟨.BUY, true, 100, 1000, 1001⟩, ⟨.SELL, true, 110, 1001, 1002⟩] = none := by
  constructor
  · exact (ticker_profit_factor_spec _).1 (by norm_num [tickerTradeReturns, List.filter_cons,
      (by decide : PortfolioSim.TradeAction.BUY ≠ PortfolioSim.TradeAction.SELL),
      (by decide : PortfolioSim.TradeAction.SELL ≠ PortfolioSim.TradeAction.BUY)])
  · norm_num [portfolioProfitFactor, tradeReturns, List.filter_cons,
      (by decide : PortfolioSim.TradeAction.SELL ≠ PortfolioSim.TradeAction.BUY)]

end Metrics

namespace Backtester

/-- C8 (amended): the daily loop iterates over the sorted UNION of the
trading days present in any loaded ticker's price series, restricted to
`[startDate, endDate]`; a (ticker, day) pair is then processed exactly
when the day is in that list, the ticker's own series contains the day,
and its close there is positive — a day missing from one ticker's series
is still processed for the other tickers. -/
theorem trading_dates_union_charn (pd : List (String × PriceSeries))
    (start_date end_date d : ℤ) (t : String) :
    (d ∈ tradingDates pd start_date end_date ↔
      (start_date ≤ d ∧ d ≤ end_date ∧ ∃ x ∈ pd, d ∈ seriesDates x.2)) ∧
    (processes pd start_date end_date t d ↔
      (d ∈ tradingDates pd start_date end_date ∧
        ∃ ser, lookupSeries pd t = some ser ∧ d ∈ seriesDates ser ∧
          ∃ c, closeAt ser d = some c ∧ 0 < c)) := by
  constructor
  · unfold tradingDates
    rw [List.mem_filter]
    simp only [List.mem_insertionSort, List.mem_dedup, List.mem_flatten,
      List.mem_map, decide_eq_true_eq]
    constructor
    · rintro ⟨⟨l, ⟨x, hx, rfl⟩, hdl⟩, h1, h2⟩
      exact ⟨h1, h2, x, hx, hdl⟩
    · rintro ⟨h1, h2, x, hx, hdl⟩
      exact ⟨⟨seriesDates x.2, ⟨x, hx, rfl⟩, hdl⟩, h1, h2⟩
  · unfold processes
    cases hl : lookupSeries pd t with
    | none => simp [hl]
    | some ser =>
        cases hc : closeAt ser d with
        | none => simp [hl, hc]
        | some c =>
            simp only [hl, hc, Option.some.injEq]
            constructor
            · rintro ⟨h1, h2, h3⟩
              exact ⟨h1, ser, rfl, h2, c, hc, h3⟩
            · rintro ⟨h1, ser2, hser2, h2, c2, hc2, h3⟩
              obtain rfl : ser = ser2 := hser2
              rw [hc] at hc2
              obtain rfl : c = c2 := Option.some.inj hc2
              exact ⟨h1, h2, h3⟩

/-- C8 (counterexample): with ticker A trading on days 0 and 1 and ticker
B only on day 1, the loop's day list is the union [0, 1] — not the
intersection [1] — and day 0, absent from B's series, is still
processed for A. -/
theorem trading_dates_intersection_counterexample :
    tradingDates [("A", [(0, 10), (1, 11)]), ("B", [(1, 5)])] 0 1 = [0, 1] ∧
    tradingDatesClaim [("A", [(0, 10), (1, 11)]), ("B", [(1, 5)])] 0 1 = [1] ∧
    processes [("A", [(0, 10), (1, 11)]), ("B", [(1, 5)])] 0 1 "A" 0 := by
  refine ⟨by decide, by decide, ?_⟩
  unfold processes
  simp [lookupSeries, closeAt, seriesDates, tradingDates, List.find?]

end Backtester
